import Mathlib

/-!
Shallow embedding of `src/scripts/kraken_day_capture.py` (trading-engine):
the paginated trade fetcher `fetch_trades_for_day`, the per-second bar
aggregator `make_second_bars` / `_gen_secbar_messages`, the replay pipeline
(`replay_file`, `_build_df_for_replay`, `_gen_tick_messages`), the paced
delivery loop `_paced_send`, and the duration parser
`parse_duration_to_seconds`.

Numeric conventions: Python floats are modelled as rationals (`ℚ`);
Python's unbounded ints as `Int`/`Nat`.  `int(x)` on a float is truncation
toward zero, modelled by `truncI`.  The Kraken server is modelled as an
arbitrary function from the request index (how many requests were already
made) to a response page, which covers every sequence of server pages,
including adversarial ones.  The fetch loop's `while pages < max_pages`
guard is modelled by structural recursion on the remaining page budget
`fuel = max_pages - pages`.
-/

namespace KrakenDayCapture

/-- `int(x)` for a Python float `x ≥ 0` or any float: truncation toward zero
(`Int.tdiv` is T-division, matching CPython's `int()` on floats). -/
def truncI (q : ℚ) : Int := Int.tdiv q.num (q.den : Int)

/-- A raw trade row of a Kraken `Trades` response page:
`[price, volume, time, side, ordertype, misc?]` (the optional trailing
trade id is never read by the script). -/
structure RawRow where
  price : ℚ
  volume : ℚ
  time : ℚ
  side : String
  ordertype : String
  misc : Option String
deriving Repr, DecidableEq

/-- One response of the `Trades` endpoint.  `error` models a truthy
`j["error"]` field (and equally a transport failure raised by
`raise_for_status`); `last` is `result["last"]`; `trades` is the first list
value of `result` other than `"last"` (defaulting to `[]`). -/
structure Page where
  error : Bool
  last : Option Int
  trades : List RawRow
deriving Repr, DecidableEq

/-- The dict yielded by `fetch_trades_for_day` for each in-window row. -/
structure Trade where
  pair : String
  price : ℚ
  volume : ℚ
  time : ℚ
  side : String
  ordertype : String
  misc : String
deriving Repr, DecidableEq

/-- The `yield {...}` body: typed fields from a raw row
(`misc = row[5] if len(row) > 5 else ""`). -/
def rowToTrade (pair_alt : String) (r : RawRow) : Trade :=
  { pair := pair_alt, price := r.price, volume := r.volume, time := r.time,
    side := r.side, ordertype := r.ordertype, misc := r.misc.getD "" }

/-- Loop state of `fetch_trades_for_day`, with ghost instrumentation:
`out` is the stream of yielded trades, `reqs` the `since` parameter of each
page request issued (in order), `rows` every raw row processed (in
processing order). -/
structure FetchState where
  since : Int
  pages : Nat
  out : List Trade
  reqs : List Int
  rows : List RawRow
deriving Repr, DecidableEq

/-- A fatal abort of the fetch: `raise RuntimeError(f"Kraken error: ...")`
(or a `raise_for_status` transport error). -/
inductive FetchErr
  | kraken
deriving Repr, DecidableEq

/-- `last_trade_ts` after the row loop: the time of the last row of the
page, `None` when the page had no rows. -/
def lastTradeTs (rows : List RawRow) : Option ℚ := rows.getLast?.map (·.time)

/-- The row filter of the loop body: a row is yielded unless
`ts < day_start` (skip) or `ts >= day_end` (skip, cursor bookkeeping only). -/
def inWindow (day_start day_end : ℚ) (r : RawRow) : Bool :=
  !decide (r.time < day_start) && !decide (day_end ≤ r.time)

/-- The `break` test of the cursor-advance section when `last` is present:
`new_since <= since` and (`last_trade_ts is None or last_trade_ts >= day_end`). -/
def stallStop (day_end : ℚ) (since l : Int) (ltt : Option ℚ) : Bool :=
  decide (l ≤ since) &&
    (match ltt with
     | none => true
     | some t => decide (day_end ≤ t))

/-- `pages += 1` and the page request `params = {"pair": ..., "since": since}`:
the ghost `reqs` records the `since` value sent. -/
def afterRequest (st : FetchState) : FetchState :=
  { st with pages := st.pages + 1, reqs := st.reqs ++ [st.since] }

/-- The row loop of one page: yield every in-window row (appended to `out`),
record every processed row in the ghost `rows`. -/
def afterRows (pair_alt : String) (day_start day_end : ℚ) (page : Page)
    (st : FetchState) : FetchState :=
  { st with
    out := st.out ++ (page.trades.filter (inWindow day_start day_end)).map
      (rowToTrade pair_alt),
    rows := st.rows ++ page.trades }

/-- The `while pages < max_pages and since < end_ns` loop of
`fetch_trades_for_day`, by structural recursion on the remaining page
budget `fuel = max_pages - pages`.  Each iteration requests
`server st.pages` (the next page of the server's response sequence),
yields the in-window rows, and runs the cursor-advance section verbatim:
when `last` is absent it breaks only on an empty page; when `last` is
present it breaks on `stallStop`, otherwise it assigns `since := last`
(the assignment at the end of the `else` arm is unconditional in the
source, line 200, so it also runs when `last < since`).  Returns the
final state and `some .kraken` when the iteration raised. -/
def fetchLoop (server : Nat → Page) (pair_alt : String) (day_start day_end : ℚ)
    (end_ns : Int) : Nat → FetchState → FetchState × Option FetchErr
  | 0, st => (st, none)
  | fuel + 1, st =>
    if st.since < end_ns then
      if (server st.pages).error then (afterRequest st, some .kraken)
      else
        match (server st.pages).last with
        | none =>
          if (lastTradeTs (server st.pages).trades).isNone then
            (afterRows pair_alt day_start day_end (server st.pages)
              (afterRequest st), none)
          else
            fetchLoop server pair_alt day_start day_end end_ns fuel
              (afterRows pair_alt day_start day_end (server st.pages)
                (afterRequest st))
        | some l =>
          if stallStop day_end st.since l (lastTradeTs (server st.pages).trades) then
            (afterRows pair_alt day_start day_end (server st.pages)
              (afterRequest st), none)
          else
            fetchLoop server pair_alt day_start day_end end_ns fuel
              { afterRows pair_alt day_start day_end (server st.pages)
                  (afterRequest st) with since := l }
    else (st, none)

/-- `fetch_trades_for_day(session, pair_alt, day_start, day_end)`:
`start_ns = int(day_start * 1e9)`, `end_ns = int(day_end * 1e9)`,
`since = start_ns`, `max_pages = 200000`, then the pagination loop. -/
def fetch_trades_for_day (server : Nat → Page) (pair_alt : String)
    (day_start day_end : ℚ) : FetchState × Option FetchErr :=
  let start_ns := truncI (day_start * 1000000000)
  let end_ns := truncI (day_end * 1000000000)
  fetchLoop server pair_alt day_start day_end end_ns 200000
    { since := start_ns, pages := 0, out := [], reqs := [], rows := [] }

/-! ### Generic facts about the fetch loop -/

/-- Any predicate preserved by the three state updates of a loop iteration
(the page request, the row loop, and the `since := last` assignment) holds
of the loop's final state. -/
theorem fetchLoop_invariant (server : Nat → Page) (pa : String) (ds de : ℚ)
    (e : Int) (P : FetchState → Prop)
    (hreq : ∀ st, st.since < e → P st → P (afterRequest st))
    (hrows : ∀ page st, P st → P (afterRows pa ds de page st))
    (hsince : ∀ l st, P st → P { st with since := l }) :
    ∀ fuel st, P st → P (fetchLoop server pa ds de e fuel st).1 := by
  intro fuel
  induction fuel with
  | zero => intro st h; simpa [fetchLoop] using h
  | succ fuel ih =>
    intro st h
    rw [fetchLoop]
    by_cases hg : st.since < e
    · rw [if_pos hg]
      have h1 : P (afterRequest st) := hreq st hg h
      have h2 : P (afterRows pa ds de (server st.pages) (afterRequest st)) :=
        hrows _ _ h1
      by_cases herr : (server st.pages).error = true
      · simpa [herr] using h1
      · rw [if_neg herr]
        rcases hlast : (server st.pages).last with _ | l
        · by_cases hn : (lastTradeTs (server st.pages).trades).isNone = true
          · simpa [hn] using h2
          · simpa [hn] using ih _ h2
        · by_cases hs : stallStop de st.since l (lastTradeTs (server st.pages).trades) = true
          · simpa [hs] using h2
          · simpa [hs] using ih _ (hsince l _ h2)
    · simpa [if_neg hg] using h

/-- Each iteration makes exactly one page request, so the loop makes at
most `fuel` requests and increments `pages` at most `fuel` times. -/
theorem fetchLoop_page_bound (server : Nat → Page) (pa : String) (ds de : ℚ)
    (e : Int) :
    ∀ fuel st, (fetchLoop server pa ds de e fuel st).1.pages ≤ st.pages + fuel ∧
      (fetchLoop server pa ds de e fuel st).1.reqs.length ≤ st.reqs.length + fuel := by
  intro fuel
  induction fuel with
  | zero => intro st; simp [fetchLoop]
  | succ fuel ih =>
    intro st
    rw [fetchLoop]
    split
    · split
      · simp only [afterRequest, List.length_append, List.length_cons, List.length_nil]
        omega
      · split
        · split
          · simp only [afterRows, afterRequest, List.length_append, List.length_cons,
              List.length_nil]
            omega
          · have h := ih (afterRows pa ds de (server st.pages) (afterRequest st))
            simp only [afterRows, afterRequest, List.length_append, List.length_cons,
              List.length_nil] at h ⊢
            omega
        · split
          · simp only [afterRows, afterRequest, List.length_append, List.length_cons,
              List.length_nil]
            omega
          · rename_i l heq hs
            have h := ih { afterRows pa ds de (server st.pages) (afterRequest st) with
              since := l }
            simp only [afterRows, afterRequest, List.length_append, List.length_cons,
              List.length_nil] at h ⊢
            omega
    · simp

/-- When no response page carries a truthy `error` field, the loop never
raises: it ends by `break`, by the window guard, or by exhausting the page
budget, all returning normally. -/
theorem fetchLoop_no_error (server : Nat → Page) (pa : String) (ds de : ℚ)
    (e : Int) (hsrv : ∀ i, (server i).error = false) :
    ∀ fuel st, (fetchLoop server pa ds de e fuel st).2 = none := by
  intro fuel
  induction fuel with
  | zero => intro st; simp [fetchLoop]
  | succ fuel ih =>
    intro st
    rw [fetchLoop]
    by_cases hg : st.since < e
    · rw [if_pos hg]
      rw [if_neg (by simp [hsrv st.pages])]
      rcases hlast : (server st.pages).last with _ | l
      · by_cases hn : (lastTradeTs (server st.pages).trades).isNone = true
        · simp [hn]
        · simpa [hn] using ih _
      · by_cases hs : stallStop de st.since l (lastTradeTs (server st.pages).trades) = true
        · simp [hs]
        · simpa [hs] using ih _
    · simp [if_neg hg]

/-- Every trade yielded by the loop lies in `[ds, de)`, and the yielded
times are a subsequence of the processed raw-row times (the yields are the
filter of the processed rows, in processing order). -/
theorem fetch_out_window_sublist (server : Nat → Page) (pa : String) (ds de : ℚ) :
    (∀ t ∈ (fetch_trades_for_day server pa ds de).1.out, ds ≤ t.time ∧ t.time < de) ∧
      ((fetch_trades_for_day server pa ds de).1.out.map Trade.time).Sublist
        ((fetch_trades_for_day server pa ds de).1.rows.map RawRow.time) := by
  simp only [fetch_trades_for_day]
  refine fetchLoop_invariant server pa ds de (truncI (de * 1000000000))
    (fun st => (∀ t ∈ st.out, ds ≤ t.time ∧ t.time < de) ∧
      (st.out.map Trade.time).Sublist (st.rows.map RawRow.time))
    ?_ ?_ ?_ 200000 _ ?_
  · intro st _ h
    exact h
  · intro page st h
    refine ⟨?_, ?_⟩
    · intro t ht
      simp only [afterRows, List.mem_append] at ht
      rcases ht with h1 | h1
      · exact h.1 t h1
      · rcases List.mem_map.1 h1 with ⟨r, hr, rfl⟩
        have hw := (List.mem_filter.1 hr).2
        simp only [inWindow, Bool.and_eq_true, Bool.not_eq_true', decide_eq_false_iff_not]
          at hw
        exact ⟨le_of_not_lt hw.1, lt_of_not_le hw.2⟩
    · simp only [afterRows, List.map_append]
      refine h.2.append ?_
      rw [List.map_map]
      have hcomp : (Trade.time ∘ rowToTrade pa) = RawRow.time := by
        funext r; rfl
      rw [hcomp]
      exact (List.filter_sublist _).map _
  · intro l st h
    exact h
  · exact ⟨by simp, by simp⟩

/-! ### Claim theorems about the fetch loop -/

/-- A server whose first page reports a cursor behind the request cursor
(`last = -1 < since = 0`) while carrying a trade dated before the window
end; every later page is empty with no cursor. -/
def regressServer : Nat → Page := fun i =>
  if i = 0 then
    { error := false, last := some (-1),
      trades := [{ price := 5, volume := 1, time := 1, side := "b",
                   ordertype := "m", misc := none }] }
  else { error := false, last := none, trades := [] }

/-- C1: the claim states the `since` cursor is advanced to `last` if and
only if `last` strictly exceeds it, hence never decreases.  The code
violates this: line 200 executes `since = new_since` even when
`new_since <= since` (the assignment sits outside the guard), so a page
whose `last` is behind the cursor, observed together with a trade before
the window end, drags the cursor backwards.  Here the requests go out with
cursors `0` then `-1`: the cursor sequence decreases. -/
theorem C1_cursor_regression :
    (fetch_trades_for_day regressServer "XBTUSD" 0 2).1.reqs = [0, -1] ∧
    ¬ List.Pairwise (· ≤ ·) (fetch_trades_for_day regressServer "XBTUSD" 0 2).1.reqs ∧
    (fetch_trades_for_day regressServer "XBTUSD" 0 2).2 = none := by
  have h0 : truncI ((0:ℚ) * 1000000000) = 0 := by norm_num [truncI]
  have h2 : truncI ((2:ℚ) * 1000000000) = 2000000000 := by norm_num [truncI]
  have key : ∀ fuel : Nat,
      (fetchLoop regressServer "XBTUSD" 0 2 2000000000 (fuel + 2)
        { since := 0, pages := 0, out := [], reqs := [], rows := [] }).1.reqs = [0, -1] ∧
      (fetchLoop regressServer "XBTUSD" 0 2 2000000000 (fuel + 2)
        { since := 0, pages := 0, out := [], reqs := [], rows := [] }).2 = none := by
    intro fuel
    constructor <;>
      simp [fetchLoop, regressServer, stallStop, lastTradeTs, inWindow, afterRows,
        afterRequest]
  have hfuel : (200000 : Nat) = 199998 + 2 := by norm_num
  refine ⟨?_, ?_, ?_⟩
  · simp only [fetch_trades_for_day, h0, h2, hfuel]
    exact (key 199998).1
  · simp only [fetch_trades_for_day, h0, h2, hfuel]
    rw [(key 199998).1]
    decide
  · simp only [fetch_trades_for_day, h0, h2, hfuel]
    exact (key 199998).2

/-- A server that always advances the cursor by one and always returns an
in-window trade, so no termination condition other than the page ceiling
can ever fire inside a long window. -/
def advServer : Nat → Page := fun i =>
  { error := false, last := some ((i : Int) + 1),
    trades := [{ price := 7, volume := 1, time := 0, side := "b",
                 ordertype := "m", misc := none }] }

/-- Against `advServer` on window `[0, 1)` the loop runs until the page
budget is exhausted and then returns normally. -/
theorem advServer_loop (fuel : Nat) :
    ∀ st : FetchState, st.since = (st.pages : Int) →
      (st.pages : Int) + (fuel : Int) ≤ 1000000000 →
      (fetchLoop advServer "P" 0 1 1000000000 fuel st).2 = none ∧
      (fetchLoop advServer "P" 0 1 1000000000 fuel st).1.pages = st.pages + fuel := by
  induction fuel with
  | zero => intro st _ _; simp [fetchLoop]
  | succ fuel ih =>
    intro st hs hb
    have step : ∀ st2 : FetchState, st2.since = (st2.pages : Int) →
        (st2.pages : Int) + (fuel : Int) ≤ 1000000000 → st2.pages = st.pages + 1 →
        (fetchLoop advServer "P" 0 1 1000000000 fuel st2).2 = none ∧
        (fetchLoop advServer "P" 0 1 1000000000 fuel st2).1.pages =
          st.pages + (fuel + 1) := by
      intro st2 h1 h2 h3
      obtain ⟨a, b⟩ := ih st2 h1 h2
      exact ⟨a, by rw [b, h3]; omega⟩
    have hg : st.since < 1000000000 := by
      rw [hs]; push_cast at hb ⊢; omega
    rw [fetchLoop, if_pos hg]
    rw [if_neg (by simp [advServer])]
    simp [advServer, stallStop, lastTradeTs]
    have hcond : ¬ ((st.pages : Int) + 1 ≤ st.since ∧ (1:ℚ) ≤ 0) := by
      intro h
      exact absurd h.2 (by norm_num)
    rw [if_neg hcond]
    apply step
    · simp [afterRows, afterRequest]
    · simp only [afterRows, afterRequest]
      push_cast at hb ⊢
      omega
    · simp [afterRows, afterRequest]

/-- C2 counterexample: with `advServer` on window `[0, 1)` the loop makes
exactly `max_pages = 200000` page requests (the hard ceiling) with the
cursor still far from the window end and every page carrying fresh
progress, and the generator then ends normally — no error of any kind is
raised, the trade stream is silently truncated. -/
theorem C2_ceiling_returns_normally :
    (fetch_trades_for_day advServer "P" 0 1).2 = none ∧
    (fetch_trades_for_day advServer "P" 0 1).1.pages = 200000 := by
  have h0 : truncI ((0:ℚ) * 1000000000) = 0 := by norm_num [truncI]
  have h1 : truncI ((1:ℚ) * 1000000000) = 1000000000 := by norm_num [truncI]
  simp only [fetch_trades_for_day, h0, h1]
  have := advServer_loop 200000
    { since := 0, pages := 0, out := [], reqs := [], rows := [] }
    (by simp) (by norm_num)
  simpa using this

/-- C2 (amended): the only fatal abort of `fetch_trades_for_day` is a
server-reported error (`j["error"]` truthy / transport failure).  In
particular, reaching the `max_pages` ceiling ends the iteration normally
and silently truncates the stream; no `PaginationStallError`-style abort
exists in the code. -/
theorem C2_no_abort_without_server_error (server : Nat → Page) (pa : String)
    (ds de : ℚ) (h : ∀ i, (server i).error = false) :
    (fetch_trades_for_day server pa ds de).2 = none := by
  simp only [fetch_trades_for_day]
  exact fetchLoop_no_error server pa ds de _ h 200000 _

/-- A server that always answers with an empty, error-free, cursor-free
page. -/
def emptyServer : Nat → Page := fun _ =>
  { error := false, last := none, trades := [] }

/-- Witness for `C2_no_abort_without_server_error` at a concrete server. -/
theorem C2_no_abort_witness :
    (fetch_trades_for_day emptyServer "P" 0 1).2 = none :=
  C2_no_abort_without_server_error emptyServer "P" 0 1 (fun _ => rfl)

/-- A server whose single page carries two in-window rows out of time
order, then a cursor far past the window end. -/
def unsortedServer : Nat → Page := fun _ =>
  { error := false, last := some 4000000000,
    trades := [{ price := 5, volume := 1, time := 2, side := "b",
                 ordertype := "m", misc := none },
               { price := 6, volume := 1, time := 1, side := "s",
                 ordertype := "m", misc := none }] }

/-- C3 counterexample: the fetch yields rows in server order without
sorting, so a page whose rows are out of time order (times `2` then `1`,
both inside `[0, 3)`) is emitted out of order — the emitted stream is not
monotonically non-decreasing for every sequence of server pages. -/
theorem C3_counterexample :
    (fetch_trades_for_day unsortedServer "X" 0 3).1.out.map Trade.time = [2, 1] ∧
    ¬ List.Pairwise (· ≤ ·)
        ((fetch_trades_for_day unsortedServer "X" 0 3).1.out.map Trade.time) ∧
    (fetch_trades_for_day unsortedServer "X" 0 3).2 = none := by
  have h0 : truncI ((0:ℚ) * 1000000000) = 0 := by norm_num [truncI]
  have h3 : truncI ((3:ℚ) * 1000000000) = 3000000000 := by norm_num [truncI]
  have key : ∀ fuel : Nat,
      (fetchLoop unsortedServer "X" 0 3 3000000000 (fuel + 2)
        { since := 0, pages := 0, out := [], reqs := [], rows := [] }).1.out.map
          Trade.time = [2, 1] ∧
      (fetchLoop unsortedServer "X" 0 3 3000000000 (fuel + 2)
        { since := 0, pages := 0, out := [], reqs := [], rows := [] }).2 = none := by
    intro fuel
    constructor <;>
      (simp [fetchLoop, unsortedServer, stallStop, lastTradeTs, inWindow, afterRows,
          afterRequest, rowToTrade, List.filter_cons] <;>
        norm_num [rowToTrade])
  have hfuel : (200000 : Nat) = 199998 + 2 := by norm_num
  refine ⟨?_, ?_, ?_⟩
  · simp only [fetch_trades_for_day, h0, h3, hfuel]
    exact (key 199998).1
  · simp only [fetch_trades_for_day, h0, h3, hfuel]
    rw [(key 199998).1]
    decide
  · simp only [fetch_trades_for_day, h0, h3, hfuel]
    exact (key 199998).2

/-- C3 (amended): for every window and every sequence of server pages,
every yielded trade has `day_start ≤ t < day_end`; and whenever the raw
rows the loop processed are non-decreasing in time (as real Kraken pages
are), the emitted trades are non-decreasing in time as well, because the
emissions are a subsequence of the processed rows. -/
theorem C3_window_and_sorted_order (server : Nat → Page) (pa : String) (ds de : ℚ) :
    (∀ t ∈ (fetch_trades_for_day server pa ds de).1.out, ds ≤ t.time ∧ t.time < de) ∧
    (List.Pairwise (· ≤ ·)
        ((fetch_trades_for_day server pa ds de).1.rows.map RawRow.time) →
      List.Pairwise (· ≤ ·)
        ((fetch_trades_for_day server pa ds de).1.out.map Trade.time)) := by
  obtain ⟨hw, hsub⟩ := fetch_out_window_sublist server pa ds de
  exact ⟨hw, fun hp => hp.sublist hsub⟩

/-- A server whose single page is sorted in time, rows inside `[0, 3)`. -/
def sortedServer : Nat → Page := fun _ =>
  { error := false, last := some 4000000000,
    trades := [{ price := 5, volume := 1, time := 1, side := "b",
                 ordertype := "m", misc := none },
               { price := 6, volume := 1, time := 2, side := "s",
                 ordertype := "m", misc := none }] }

/-- Witness for `C3_window_and_sorted_order` at a concrete sorted server. -/
theorem C3_window_witness :
    List.Pairwise (· ≤ ·)
      ((fetch_trades_for_day sortedServer "X" 0 3).1.out.map Trade.time) := by
  apply (C3_window_and_sorted_order sortedServer "X" 0 3).2
  have h0 : truncI ((0:ℚ) * 1000000000) = 0 := by norm_num [truncI]
  have h3 : truncI ((3:ℚ) * 1000000000) = 3000000000 := by norm_num [truncI]
  have key : ∀ fuel : Nat,
      (fetchLoop sortedServer "X" 0 3 3000000000 (fuel + 2)
        { since := 0, pages := 0, out := [], reqs := [], rows := [] }).1.rows.map
          RawRow.time = [1, 2] := by
    intro fuel
    simp [fetchLoop, sortedServer, stallStop, lastTradeTs, inWindow, afterRows,
      afterRequest]
  have hfuel : (200000 : Nat) = 199998 + 2 := by norm_num
  simp only [fetch_trades_for_day, h0, h3, hfuel]
  rw [key 199998]
  decide

/-- C4: whatever the server returns — even a cursor that never advances or
never appears — the fetch performs at most `max_pages = 200000` page
requests; the loop cannot run beyond the ceiling (and hence terminates,
the embedding being total with this bound as the loop variant). -/
theorem C4_at_most_max_pages (server : Nat → Page) (pa : String) (ds de : ℚ) :
    (fetch_trades_for_day server pa ds de).1.pages ≤ 200000 ∧
    (fetch_trades_for_day server pa ds de).1.reqs.length ≤ 200000 := by
  simp only [fetch_trades_for_day]
  have := fetchLoop_page_bound server pa ds de (truncI (de * 1000000000)) 200000
    { since := truncI (ds * 1000000000), pages := 0, out := [], reqs := [], rows := [] }
  simpa using this

/-- C10: every page request is issued under the loop guard
`since < end_ns`, so the `since` parameter sent is always strictly below
the window end in nanoseconds; once the cursor reaches or passes `end_ns`
no further page is requested. -/
theorem C10_requests_below_window_end (server : Nat → Page) (pa : String)
    (ds de : ℚ) :
    ∀ s ∈ (fetch_trades_for_day server pa ds de).1.reqs,
      s < truncI (de * 1000000000) := by
  simp only [fetch_trades_for_day]
  refine fetchLoop_invariant server pa ds de (truncI (de * 1000000000))
    (fun st => ∀ s ∈ st.reqs, s < truncI (de * 1000000000)) ?_ ?_ ?_ 200000 _ ?_
  · intro st hg h s hsmem
    simp only [afterRequest, List.mem_append, List.mem_singleton] at hsmem
    rcases hsmem with h1 | h1
    · exact h s h1
    · rw [h1]; exact hg
  · intro page st h
    exact h
  · intro l st h
    exact h
  · simp

/-- Witness for `C10_requests_below_window_end`: the run against the
trivial empty server requests once with cursor `0 < 10^9`. -/
theorem C10_witness :
    (0 : Int) < truncI ((1 : ℚ) * 1000000000) := by
  apply C10_requests_below_window_end emptyServer "P" 0 1
  have h0 : truncI ((0:ℚ) * 1000000000) = 0 := by norm_num [truncI]
  have h1 : truncI ((1:ℚ) * 1000000000) = 1000000000 := by norm_num [truncI]
  have key : ∀ fuel : Nat,
      (fetchLoop emptyServer "P" 0 1 1000000000 (fuel + 1)
        { since := 0, pages := 0, out := [], reqs := [], rows := [] }).1.reqs = [0] := by
    intro fuel
    simp [fetchLoop, emptyServer, lastTradeTs, afterRows, afterRequest]
  have hfuel : (200000 : Nat) = 199999 + 1 := by norm_num
  simp only [fetch_trades_for_day, h0, h1, hfuel]
  rw [key 199999]
  simp

/-! ### Per-second OHLCV bars: `make_second_bars` and `_gen_secbar_messages` -/

/-- The 1-second bin label of a timestamp: pandas `resample("1S")` floors
the time to the whole second (bins `[k, k+1)` labelled `k`). -/
def secOf (t : ℚ) : Int := ⌊t⌋

/-- The trades of `df` that fall into the bin labelled `k`, in dataframe
order (`make_second_bars` is applied to time-sorted frames: capture writes
trades time-ascending and the replay paths `sort_index()` first). -/
def binTrades (df : List Trade) (k : Int) : List Trade :=
  df.filter (fun t => decide (secOf t.time = k))

/-- One row of the frame built by `make_second_bars`: columns
`open, high, low, close, volume, trades, vwap` over the 1-second bin
starting at `sec`.  Aggregates of an empty bin are NA (`none`), except
`volume` (pandas `sum` of an empty bin is `0`) and `trades` (count `0`).
`openP` stands for the `open` column (`open` is a Lean keyword). -/
structure BarRow where
  sec : Int
  openP : Option ℚ
  high : Option ℚ
  low : Option ℚ
  close : Option ℚ
  volume : ℚ
  trades : Nat
  vwap : Option ℚ
deriving Repr, DecidableEq

/-- `vol.resample("1S").sum()` for one bin. -/
def sumVol (g : List Trade) : ℚ := (g.map (·.volume)).sum

/-- `(price * vol).resample("1S").sum()` for one bin. -/
def sumPV (g : List Trade) : ℚ := (g.map (fun t => t.price * t.volume)).sum

/-- The row of bin `k`: `open` = first price, `high`/`low` = max/min,
`close` = last price, `volume` = volume sum, `trades` = count,
`vwap = pv / v.replace(0, pd.NA)` — NA when the volume sum is `0`,
otherwise the quotient of the sums. -/
def barAt (df : List Trade) (k : Int) : BarRow :=
  { sec := k
    openP := (binTrades df k).head?.map (·.price)
    high := ((binTrades df k).map (·.price)).max?
    low := ((binTrades df k).map (·.price)).min?
    close := (binTrades df k).getLast?.map (·.price)
    volume := sumVol (binTrades df k)
    trades := (binTrades df k).length
    vwap := if sumVol (binTrades df k) = 0 then none
            else some (sumPV (binTrades df k) / sumVol (binTrades df k)) }

/-- `make_second_bars(df)`: the empty frame for empty input, otherwise one
row per second from the first to the last populated bin (pandas `resample`
materializes the intermediate empty bins as NA rows; they are dropped
downstream by `dropna(subset=["close"])`). -/
def make_second_bars (df : List Trade) : List BarRow :=
  match (df.map (fun t => secOf t.time)).min?, (df.map (fun t => secOf t.time)).max? with
  | some a, some b => (List.range (b - a + 1).toNat).map (fun i => barAt df (a + i))
  | _, _ => []

/-- The bar rows emitted by `_gen_secbar_messages` (and by the secbar
branch of `replay_file`): `if bars.empty: return`, then
`bars.dropna(subset=["close"], how="all").sort_index()`; the frame is
already in ascending bin order, so the sort is the identity, and a row's
`close` is NA exactly when its bin is empty. -/
def secbarRows (df : List Trade) : List BarRow :=
  if make_second_bars df = [] then []
  else (make_second_bars df).filter (fun b => !b.close.isNone)

/-- Every row of the resampled frame is the row of its own bin. -/
theorem mem_make_second_bars {df : List Trade} {b : BarRow}
    (hb : b ∈ make_second_bars df) : ∃ k, b = barAt df k := by
  unfold make_second_bars at hb
  split at hb
  · rcases List.mem_map.1 hb with ⟨i, _, rfl⟩
    exact ⟨_, rfl⟩
  · simp at hb

/-- Rows surviving `dropna(subset=["close"])` have a non-empty bin: no bar
is emitted for a bucket containing zero trades. -/
theorem secbarRows_trades_ne_zero (df : List Trade) :
    ∀ b ∈ secbarRows df, b.trades ≠ 0 := by
  intro b hb
  simp only [secbarRows] at hb
  split at hb
  · simp at hb
  · have hb2 := List.mem_filter.1 hb
    obtain ⟨k, rfl⟩ := mem_make_second_bars hb2.1
    have hclose := hb2.2
    intro hlen
    have hnil : binTrades df k = [] := by
      have : (binTrades df k).length = 0 := hlen
      exact List.length_eq_zero.1 this
    simp [barAt, hnil] at hclose

/-- C5: for every input frame and every row of the resampled frame, the
`vwap` column is the quotient `Σ(price·volume) / Σ(volume)` over the
row's bin whenever the volume sum is nonzero, and NA (emitted as JSON
`null`, never a number) when the volume sum is zero.  (Floats are
modelled as exact rationals, so NaN/infinity cannot arise at all; the
code's `v.replace(0, pd.NA)` guard is what this theorem captures.) -/
theorem C5_vwap (df : List Trade) (b : BarRow) (hb : b ∈ make_second_bars df) :
    (sumVol (binTrades df b.sec) = 0 → b.vwap = none) ∧
    (sumVol (binTrades df b.sec) ≠ 0 →
      b.vwap = some (sumPV (binTrades df b.sec) / sumVol (binTrades df b.sec))) := by
  obtain ⟨k, rfl⟩ := mem_make_second_bars hb
  have hsec : (barAt df k).sec = k := rfl
  rw [hsec]
  constructor
  · intro h; simp [barAt, h]
  · intro h; simp [barAt, h]

/-- A one-bucket frame with trades `(price 10, volume 1)` and
`(price 20, volume 3)`. -/
def vwapDemo : List Trade :=
  [{ pair := "X", price := 10, volume := 1, time := 0, side := "b",
     ordertype := "market", misc := "" },
   { pair := "X", price := 20, volume := 3, time := 0, side := "s",
     ordertype := "market", misc := "" }]

/-- Witness for `C5_vwap`: the bucket vwap is
`(10·1 + 20·3) / (1 + 3) = 35/2`. -/
theorem C5_witness :
    (barAt vwapDemo 0).vwap = some ((10 * 1 + 20 * 3) / (1 + 3) : ℚ) := by
  have hmem : barAt vwapDemo 0 ∈ make_second_bars vwapDemo := by
    simp only [make_second_bars, vwapDemo, List.map_cons, List.map_nil, secOf]
    norm_num
  have hbin : binTrades vwapDemo (barAt vwapDemo 0).sec = vwapDemo := by
    simp only [barAt]
    simp only [binTrades, vwapDemo, List.filter_cons, List.filter_nil,
      decide_eq_true_eq, secOf]
    norm_num
  have hvol : sumVol (binTrades vwapDemo (barAt vwapDemo 0).sec) ≠ 0 := by
    rw [hbin]
    norm_num [sumVol, vwapDemo]
  have h := (C5_vwap vwapDemo (barAt vwapDemo 0) hmem).2 hvol
  rw [h, hbin]
  norm_num [sumPV, sumVol, vwapDemo]

/-- The test-fixture trade of the C6 scenario: pair `X`, given price,
volume and time. -/
def mkTrade (p v t : ℚ) : Trade :=
  { pair := "X", price := p, volume := v, time := t, side := "b",
    ordertype := "market", misc := "" }

/-- C6: aggregating four trades at `t = 0, 0.4, 0.9, 1.2` of one pair with
the one-second bins yields exactly two emitted bars: bin `[0,1)` with
`open` = the price at `t=0`, `close` = the price at `t=0.9` and three
trades, and bin `[1,2)` with one trade and `vwap` = the price at `t=1.2`;
and in general no bar is emitted for a bucket containing zero trades. -/
theorem C6_scenario (p1 p2 p3 p4 v1 v2 v3 v4 : ℚ) (h4 : v4 ≠ 0) :
    (secbarRows [mkTrade p1 v1 0, mkTrade p2 v2 (2/5), mkTrade p3 v3 (9/10),
        mkTrade p4 v4 (6/5)]).map (fun b => b.sec) = [0, 1] ∧
    (secbarRows [mkTrade p1 v1 0, mkTrade p2 v2 (2/5), mkTrade p3 v3 (9/10),
        mkTrade p4 v4 (6/5)]).map (fun b => b.openP) = [some p1, some p4] ∧
    (secbarRows [mkTrade p1 v1 0, mkTrade p2 v2 (2/5), mkTrade p3 v3 (9/10),
        mkTrade p4 v4 (6/5)]).map (fun b => b.close) = [some p3, some p4] ∧
    (secbarRows [mkTrade p1 v1 0, mkTrade p2 v2 (2/5), mkTrade p3 v3 (9/10),
        mkTrade p4 v4 (6/5)]).map (fun b => b.trades) = [3, 1] ∧
    ((secbarRows [mkTrade p1 v1 0, mkTrade p2 v2 (2/5), mkTrade p3 v3 (9/10),
        mkTrade p4 v4 (6/5)]).map (fun b => b.vwap)).getLast? = some (some p4) ∧
    (∀ df2 : List Trade, ∀ b ∈ secbarRows df2, b.trades ≠ 0) := by
  have hb0 : binTrades [mkTrade p1 v1 0, mkTrade p2 v2 (2/5), mkTrade p3 v3 (9/10),
      mkTrade p4 v4 (6/5)] 0 = [mkTrade p1 v1 0, mkTrade p2 v2 (2/5),
      mkTrade p3 v3 (9/10)] := by
    simp only [binTrades, mkTrade, List.filter_cons, List.filter_nil,
      decide_eq_true_eq, secOf]
    norm_num
  have hb1 : binTrades [mkTrade p1 v1 0, mkTrade p2 v2 (2/5), mkTrade p3 v3 (9/10),
      mkTrade p4 v4 (6/5)] 1 = [mkTrade p4 v4 (6/5)] := by
    simp only [binTrades, mkTrade, List.filter_cons, List.filter_nil,
      decide_eq_true_eq, secOf]
    norm_num
  have hmsb : make_second_bars [mkTrade p1 v1 0, mkTrade p2 v2 (2/5),
      mkTrade p3 v3 (9/10), mkTrade p4 v4 (6/5)] =
      [barAt [mkTrade p1 v1 0, mkTrade p2 v2 (2/5), mkTrade p3 v3 (9/10),
        mkTrade p4 v4 (6/5)] 0,
       barAt [mkTrade p1 v1 0, mkTrade p2 v2 (2/5), mkTrade p3 v3 (9/10),
        mkTrade p4 v4 (6/5)] 1] := by
    simp only [make_second_bars, mkTrade, List.map_cons, List.map_nil, secOf]
    norm_num
    simp [List.range_succ, mkTrade]
  have hrows : secbarRows [mkTrade p1 v1 0, mkTrade p2 v2 (2/5), mkTrade p3 v3 (9/10),
      mkTrade p4 v4 (6/5)] =
      [barAt [mkTrade p1 v1 0, mkTrade p2 v2 (2/5), mkTrade p3 v3 (9/10),
        mkTrade p4 v4 (6/5)] 0,
       barAt [mkTrade p1 v1 0, mkTrade p2 v2 (2/5), mkTrade p3 v3 (9/10),
        mkTrade p4 v4 (6/5)] 1] := by
    rw [secbarRows, hmsb]
    rw [if_neg (by simp)]
    simp [List.filter_cons, barAt, hb0, hb1]
  refine ⟨?_, ?_, ?_, ?_, ?_, fun df2 => secbarRows_trades_ne_zero df2⟩
  · rw [hrows]
    simp [barAt]
  · rw [hrows]
    simp only [List.map_cons, List.map_nil, barAt]
    rw [hb0, hb1]
    simp [mkTrade]
  · rw [hrows]
    simp only [List.map_cons, List.map_nil, barAt]
    rw [hb0, hb1]
    simp [mkTrade]
  · rw [hrows]
    simp only [List.map_cons, List.map_nil, barAt]
    rw [hb0, hb1]
    simp
  · rw [hrows]
    simp only [List.map_cons, List.map_nil, barAt]
    rw [hb0, hb1]
    simp [mkTrade, sumVol, sumPV, h4, mul_div_assoc, div_self]

/-- Witness for `C6_scenario` at concrete prices `100..103` and volumes
`1..4`. -/
theorem C6_witness :
    (secbarRows [mkTrade 100 1 0, mkTrade 101 2 (2/5), mkTrade 102 3 (9/10),
        mkTrade 103 4 (6/5)]).map (fun b => b.trades) = [3, 1] ∧
    ((secbarRows [mkTrade 100 1 0, mkTrade 101 2 (2/5), mkTrade 102 3 (9/10),
        mkTrade 103 4 (6/5)]).map (fun b => b.vwap)).getLast? = some (some 103) := by
  have h := C6_scenario 100 101 102 103 1 2 3 4 (by norm_num)
  exact ⟨h.2.2.2.1, h.2.2.2.2.1⟩

/-! ### Replay: `_build_df_for_replay`, the generators, and `replay_file` -/

/-- The symbol normalization `x.replace("/", "").upper()` used on both
sides of the replay filter: drop every `'/'` and uppercase (ASCII). -/
def normSym (s : String) : String :=
  String.mk ((s.data.filter (fun c => !(c == '/'))).map Char.toUpper)

/-- `df = df[df["pair"].str.replace("/","").str.upper() == want]` with
`want = symbol.replace("/","").upper()`; no filter when no symbol is
given. -/
def filterSymbol (rows : List Trade) (symbol : Option String) : List Trade :=
  match symbol with
  | some sym => rows.filter (fun t => normSym t.pair == normSym sym)
  | none => rows

/-- `_build_df_for_replay(path, symbol)`: the empty frame stays empty;
otherwise the optional symbol filter, then `sort_index()` (a stable sort
on the time index). -/
def build_df_for_replay (rows : List Trade) (symbol : Option String) : List Trade :=
  if rows = [] then rows
  else (filterSymbol rows symbol).mergeSort (fun a b => decide (a.time ≤ b.time))

/-- A wire message of replay: a raw tick (`"type":"tick"`) or a
per-second bar (`"type":"secbar"`, with its optional `"pair"` field). -/
inductive ReplayMsg
  | tick (t : Trade)
  | secbar (pairField : Option String) (b : BarRow)
deriving Repr, DecidableEq

/-- `pair_val = df["pair"].iloc[0]` (exceptions give `None`) combined with
the emitters' `if pair_val` truthiness test: the empty string is falsy,
so it also omits the field. -/
def pairVal (df : List Trade) : Option String :=
  match df.head? with
  | some t => if t.pair = "" then none else some t.pair
  | none => none

/-- `_gen_tick_messages(df)`: one `(src_ts, tick)` per row, in frame
order. -/
def gen_tick_messages (df : List Trade) : List (ℚ × ReplayMsg) :=
  df.map (fun t => (t.time, ReplayMsg.tick t))

/-- `_gen_secbar_messages(df)`: one `(src_ts, secbar)` per emitted bar;
`src_ts = ts.timestamp()` is the bin label in seconds. -/
def gen_secbar_messages (df : List Trade) : List (ℚ × ReplayMsg) :=
  (secbarRows df).map (fun b => ((b.sec : ℚ), ReplayMsg.secbar (pairVal df) b))

/-- The message sequence the WebSocket replay modes build:
`_build_df_for_replay` fed to `_gen_tick_messages` or
`_gen_secbar_messages` according to `--ticks`. -/
def replay_messages (rows : List Trade) (symbol : Option String) (ticks : Bool) :
    List (ℚ × ReplayMsg) :=
  if ticks then gen_tick_messages (build_df_for_replay rows symbol)
  else gen_secbar_messages (build_df_for_replay rows symbol)

/-- The messages printed by `replay_file(path, pace, emit_ticks, symbol)`
(the pacing of the prints is the `paceRun` loop below): return on an empty
file; apply the symbol filter, returning if it leaves nothing; then either
one tick per time-sorted row or one secbar per emitted bar. -/
def replay_file (rows : List Trade) (emit_ticks : Bool) (symbol : Option String) :
    List ReplayMsg :=
  if rows = [] then []
  else if filterSymbol rows symbol = [] then []
  else if emit_ticks then
    ((filterSymbol rows symbol).mergeSort
      (fun a b => decide (a.time ≤ b.time))).map ReplayMsg.tick
  else (secbarRows (filterSymbol rows symbol)).map
    (ReplayMsg.secbar (pairVal (filterSymbol rows symbol)))

/-- C8: when the dataset is empty, or the symbol filter leaves nothing,
`replay_file` and the generator pipeline behind both WebSocket modes
produce no messages; the embedding is a total function, so the empty
replay is a plain no-op, not an error. -/
theorem C8_empty_replay (rows : List Trade) (symbol : Option String) (ticks : Bool)
    (h : filterSymbol rows symbol = []) :
    replay_file rows ticks symbol = [] ∧ replay_messages rows symbol ticks = [] := by
  have hdf : build_df_for_replay rows symbol = [] := by
    unfold build_df_for_replay
    split
    · assumption
    · rw [h, List.mergeSort_nil]
  constructor
  · simp [replay_file, h]
  · have hsec : gen_secbar_messages [] = [] := by
      simp [gen_secbar_messages, secbarRows, make_second_bars]
    simp [replay_messages, hdf, hsec, gen_tick_messages]

/-- Witness for `C8_empty_replay`: a one-trade dataset filtered by a
symbol that matches nothing. -/
theorem C8_empty_witness :
    replay_file [mkTrade 1 1 0] true (some "BTC/USD") = [] ∧
    replay_messages [mkTrade 1 1 0] (some "BTC/USD") true = [] :=
  C8_empty_replay [mkTrade 1 1 0] (some "BTC/USD") true (by decide)

/-! ### Paced delivery: the loop of `_paced_send` (the pacing blocks of
`replay_file` are textually the same algorithm with `time.monotonic` for
`loop.time` and `time.sleep` for `asyncio.sleep`) -/

/-- State of the pacing loop: `firstSrc` and `wall0` are the source-time
and wall-clock anchors (`first_src`, `wall0`); `now` is the idealized
event-loop clock `loop.time()`, which advances only while sleeping and
inside the delivery callback. -/
structure PaceState where
  firstSrc : Option ℚ
  wall0 : ℚ
  now : ℚ
deriving Repr, DecidableEq

/-- One iteration of the delivery loop for a message with source
timestamp `srcTs` whose `send_func` call consumes `sendDur` of wall time:
on the first message set `first_src := srcTs` and re-anchor
`wall0 := loop.time()`; then, only when `pace > 0`, compute
`delay = (srcTs - first_src) / pace - (loop.time() - wall0)` and sleep
exactly `delay` if it is positive.  Returns the sleep performed (`0` when
none) and the state after `send_func` returns. -/
def paceStep (pace srcTs sendDur : ℚ) (st : PaceState) : ℚ × PaceState :=
  let st1 := match st.firstSrc with
    | none => { st with firstSrc := some srcTs, wall0 := st.now }
    | some _ => st
  let slp : ℚ :=
    if pace > 0 then
      let delay := (srcTs - st1.firstSrc.getD srcTs) / pace - (st1.now - st1.wall0)
      if delay > 0 then delay else 0
    else 0
  (slp, { st1 with now := st1.now + slp + sendDur })

/-- One pass of the delivery loop over
`msgs = [(src_ts, send duration), ...]`: the trace of (sleep performed
before that delivery, state at the top of the loop body). -/
def paceRun (pace : ℚ) : PaceState → List (ℚ × ℚ) → List (ℚ × PaceState)
  | _, [] => []
  | st, m :: rest =>
    ((paceStep pace m.1 m.2 st).1, st) :: paceRun pace (paceStep pace m.1 m.2 st).2 rest

/-- `if 0 < d then d else 0` is `max 0 d`. -/
theorem ite_pos_eq_max (d : ℚ) : (if d > 0 then d else 0) = max 0 d := by
  rcases le_or_lt d 0 with h | h
  · rw [if_neg (not_lt.2 h), max_eq_left h]
  · rw [if_pos h, max_eq_right h.le]

/-- Once anchored, a step preserves both anchors. -/
theorem paceStep_preserve (pace a d : ℚ) (st : PaceState) (f : ℚ)
    (h : st.firstSrc = some f) :
    (paceStep pace a d st).2.firstSrc = some f ∧
    (paceStep pace a d st).2.wall0 = st.wall0 := by
  simp [paceStep, h]

/-- In an anchored run with `pace > 0`, every delivery sleeps exactly
`max 0 ((src_ts - first_src) / pace - elapsed_wall)`, `elapsed_wall`
measured from the wall anchor to the loop-head clock. -/
theorem paceRun_anchored (pace f w : ℚ) :
    ∀ (msgs : List (ℚ × ℚ)) (st : PaceState), 0 < pace →
      st.firstSrc = some f → st.wall0 = w →
      ∀ (i : Nat) (e : ℚ × PaceState) (m : ℚ × ℚ),
        (paceRun pace st msgs)[i]? = some e → msgs[i]? = some m →
        e.2.firstSrc = some f ∧ e.2.wall0 = w ∧
        e.1 = max 0 ((m.1 - f) / pace - (e.2.now - w)) := by
  intro msgs
  induction msgs with
  | nil =>
    intro st _ _ _ i e m he _
    simp [paceRun] at he
  | cons hd tl ih =>
    intro st hp hf hw i e m he hm
    cases i with
    | zero =>
      simp only [paceRun, List.getElem?_cons_zero, Option.some.injEq] at he hm
      subst he
      subst hm
      refine ⟨hf, hw, ?_⟩
      simp only [paceStep, hf]
      rw [if_pos hp, ite_pos_eq_max]
      simp [hw]
    | succ i =>
      simp only [paceRun, List.getElem?_cons_succ] at he hm
      obtain ⟨h1, h2⟩ := paceStep_preserve pace hd.1 hd.2 st f hf
      exact ih _ hp h1 (by rw [h2, hw]) i e m he hm

/-- With `pace ≤ 0` no iteration ever sleeps. -/
theorem paceRun_unpaced (pace : ℚ) (hp : pace ≤ 0) :
    ∀ (msgs : List (ℚ × ℚ)) (st : PaceState),
      ∀ e ∈ paceRun pace st msgs, e.1 = 0 := by
  intro msgs
  induction msgs with
  | nil => intro st e he; simp [paceRun] at he
  | cons hd tl ih =>
    intro st e he
    simp only [paceRun, List.mem_cons] at he
    rcases he with he | he
    · rw [he]
      simp [paceStep, if_neg (not_lt.2 hp)]
    · exact ih _ e he

/-- C7: in one pass of the paced delivery loop started with a fresh state
(no source anchor; the wall anchor preset to the current clock exactly as
`wall0 = loop.time()` before the loop): with `pace ≤ 0` no sleep is ever
performed and messages go out back-to-back; with `pace > 0` the first
message is delivered with zero sleep and anchors both origins, and every
later delivery sleeps exactly
`max 0 ((src_ts - first_src) / pace - elapsed_wall)`. -/
theorem C7_pacing (pace now0 : ℚ) (msgs : List (ℚ × ℚ)) :
    (pace ≤ 0 → ∀ e ∈ paceRun pace ⟨none, now0, now0⟩ msgs, e.1 = 0) ∧
    (0 < pace → ∀ m0 : ℚ × ℚ, msgs[0]? = some m0 →
      ((paceRun pace ⟨none, now0, now0⟩ msgs)[0]?).map Prod.fst = some 0 ∧
      (∀ (i : Nat) (e : ℚ × PaceState) (m : ℚ × ℚ),
        (paceRun pace ⟨none, now0, now0⟩ msgs)[i+1]? = some e →
        msgs[i+1]? = some m →
        e.2.firstSrc = some m0.1 ∧ e.2.wall0 = now0 ∧
        e.1 = max 0 ((m.1 - m0.1) / pace - (e.2.now - now0)))) := by
  constructor
  · intro hp
    exact paceRun_unpaced pace hp msgs _
  · intro hp m0 hm0
    cases msgs with
    | nil => simp at hm0
    | cons hd tl =>
      simp only [List.getElem?_cons_zero, Option.some.injEq] at hm0
      subst hm0
      constructor
      · simp only [paceRun, List.getElem?_cons_zero, Option.map_some]
        have : (paceStep pace hd.1 hd.2 ⟨none, now0, now0⟩).1 = 0 := by
          simp [paceStep, if_pos hp]
        rw [this]
        rfl
      · intro i e m he hm
        simp only [paceRun, List.getElem?_cons_succ] at he hm
        have hst : (paceStep pace hd.1 hd.2 ⟨none, now0, now0⟩).2.firstSrc = some hd.1 ∧
            (paceStep pace hd.1 hd.2 ⟨none, now0, now0⟩).2.wall0 = now0 := by
          constructor <;> simp [paceStep]
        exact paceRun_anchored pace hd.1 now0 tl _ hp hst.1 hst.2 i e m he hm

/-- Witness for `C7_pacing`: two messages `3` source-seconds apart at
`pace = 1` with an instantaneous first send; the second delivery sleeps
exactly `3`. -/
theorem C7_witness :
    ((paceRun 1 ⟨none, 0, 0⟩ [((0:ℚ), (0:ℚ)), (3, 1)])[1]?).map Prod.fst = some 3 := by
  have hrun : paceRun 1 ⟨none, 0, 0⟩ [((0:ℚ), (0:ℚ)), (3, 1)] =
      [(0, ⟨none, 0, 0⟩), (3, ⟨some 0, 0, 0⟩)] := by
    norm_num [paceRun, paceStep]
  have h := ((C7_pacing 1 0 [((0:ℚ), (0:ℚ)), (3, 1)]).2 one_pos (0, 0) rfl).2 0
    (3, (⟨some 0, 0, 0⟩ : PaceState)) (3, 1) (by rw [hrun]; rfl) rfl
  rw [hrun]
  have h3 := h.2.2
  norm_num at h3
  simp [h3]

/-! ### `parse_duration_to_seconds` -/

/-- The Python whitespace class `\s` (also the `str.strip` set), ASCII. -/
def isPySpace (c : Char) : Bool :=
  c == ' ' || c == '\t' || c == '\n' || c == '\r' || c == '\x0b' || c == '\x0c'

/-- The character class `[a-z]` (the string was lower-cased first). -/
def isAz (c : Char) : Bool := 'a' ≤ c && c ≤ 'z'

/-- `int(num)` of a decimal digit run. -/
def natOfDigits (ds : List Char) : Nat :=
  ds.foldl (fun n c => 10 * n + (c.toNat - '0'.toNat)) 0

/-- `re.findall(r"(\d+)\s*([a-z]+)", s)`: scan left to right; at a digit,
capture the maximal digit run, skip whitespace, and capture the following
maximal letter run; when no letter follows, no match can start inside the
digits or the skipped whitespace, so scanning resumes right after them.
`fuel` only bounds the recursion (every step drops at least one character,
so the string length suffices); it carries no Python semantics. -/
def findGroupsF : Nat → List Char → List (Nat × String)
  | 0, _ => []
  | _ + 1, [] => []
  | fuel + 1, c :: cs =>
    if c.isDigit then
      let digs := (c :: cs).takeWhile Char.isDigit
      let r2 := ((c :: cs).dropWhile Char.isDigit).dropWhile isPySpace
      let letts := r2.takeWhile isAz
      if letts.isEmpty then findGroupsF fuel r2
      else (natOfDigits digs, String.mk letts) :: findGroupsF fuel (r2.dropWhile isAz)
    else findGroupsF fuel cs

/-- The number/unit groups found in `s`. -/
def findGroups (l : List Char) : List (Nat × String) := findGroupsF l.length l

/-- `str.strip()` over the Python whitespace set. -/
def pyStrip (s : List Char) : List Char :=
  ((s.dropWhile isPySpace).reverse.dropWhile isPySpace).reverse

/-- `str.lower()` (ASCII). -/
def pyLower (s : List Char) : List Char := s.map Char.toLower

/-- The unit table of the parser's accumulation loop. -/
def unitSeconds (u : String) : Option Nat :=
  if u ∈ ["s", "sec", "secs", "second", "seconds"] then some 1
  else if u ∈ ["m", "min", "mins", "minute", "minutes"] then some 60
  else if u ∈ ["h", "hr", "hrs", "hour", "hours"] then some 3600
  else if u ∈ ["d", "day", "days"] then some 86400
  else none

/-- `parse_duration_to_seconds(expr)`: reject the empty string; strip and
lower-case; a full match of `\d+` returns the integer as seconds (with no
positivity check); otherwise sum the `(\d+)\s*([a-z]+)` groups, a
`ValueError` (modelled as `Except.error`) on an unknown unit, and a
`ValueError` when the accumulated total is not positive. -/
def parse_duration_to_seconds (expr : String) : Except String Nat :=
  if expr = "" then Except.error "empty duration"
  else
    let s := pyLower (pyStrip expr.data)
    if s ≠ [] ∧ s.all Char.isDigit then Except.ok (natOfDigits s)
    else
      match (findGroups s).foldl
        (fun acc g =>
          match acc with
          | Except.error e => Except.error e
          | Except.ok total =>
            match unitSeconds g.2 with
            | some k => Except.ok (total + g.1 * k)
            | none => Except.error ("unknown unit " ++ g.2)) (Except.ok 0) with
      | Except.error e => Except.error e
      | Except.ok total =>
        if total ≤ 0 then Except.error "non-positive duration" else Except.ok total

/-- C9: the claim requires an error for every non-positive or unparsable
duration string.  The bare-integer fast path skips the positivity check:
`"0"` is returned as `0` seconds, although the unit path rejects the
equivalent `"0s"` as non-positive; and surrounding junk is ignored rather
than rejected: `"1.5h"` is accepted as `5h = 18000` seconds.  Well-formed
positive durations are parsed correctly (`"90m"`, `"1d2h15m10s"`). -/
theorem C9_zero_and_junk_accepted :
    parse_duration_to_seconds "0" = Except.ok 0 ∧
    parse_duration_to_seconds "0s" = Except.error "non-positive duration" ∧
    parse_duration_to_seconds "1.5h" = Except.ok 18000 ∧
    parse_duration_to_seconds "90m" = Except.ok 5400 ∧
    parse_duration_to_seconds "1d2h15m10s" = Except.ok 94510 := by
  refine ⟨?_, ?_, ?_, ?_, ?_⟩ <;> rfl

end KrakenDayCapture
